import Mathlib

/-!
Verification of the asynchronous task-orchestration pipeline of the
`repository-scan` code-review service.

Python strings are modelled as `List Char`; Python `int` as `Int` (with `Nat`
where the source value is manifestly non-negative).  Python string slicing and
`str.rfind` keep Python's semantics for negative indices, because
`chunk_text` in `app/utils/helpers.py` really does produce negative indices
on some inputs.  The stateful pieces (the SQLAlchemy task store, the Celery
orchestrator) are modelled as explicit state passing: the store is an ordered
list of task records and the orchestrator's effect is the list of
`update_task_status` calls it issues.
-/

/-- Normalize a Python slice/rfind index against a string of length `len`:
negative indices count from the end and everything is clamped to `[0, len]`. -/
def pyIdx (len : Nat) (i : Int) : Nat :=
  if i < 0 then len - min len i.natAbs else min len i.toNat

/-- Python `s[a:b]` (step 1) on a string modelled as `List Char`. -/
def pySlice (s : List Char) (a b : Int) : List Char :=
  (s.take (pyIdx s.length b)).drop (pyIdx s.length a)

/-- Scan downward from index `b - 1` to `a` for the character `c`;
`-1` when absent.  This is the kernel of Python's `str.rfind` for a
single-character needle, after index normalization. -/
def pyRfindNat (s : List Char) (c : Char) (a : Nat) : Nat → Int
  | 0 => -1
  | b + 1 =>
    if b < a then -1
    else if s.get? b = some c then (b : Int)
    else pyRfindNat s c a b

/-- Python `s.rfind(c, a, b)` for a single-character needle `c`:
highest index `i` in the normalized range with `s[i] = c`, else `-1`. -/
def pyRfind (s : List Char) (c : Char) (a b : Int) : Int :=
  pyRfindNat s c (pyIdx s.length a) (pyIdx s.length b)

/-- The `while start < len(text)` loop of `chunk_text`
(`app/utils/helpers.py`, lines 197-216), with explicit fuel standing in for
the unbounded iteration: `none` means the loop has not finished within
`fuel` iterations.  The trailing `if start >= len(text): break` of the
source duplicates the loop guard and is absorbed into it. -/
def chunk_text_loop (text : List Char) (chunkSize overlap : Int) :
    Nat → Int → List (List Char) → Option (List (List Char))
  | 0, _, _ => none
  | fuel + 1, start, chunks =>
    if start < (text.length : Int) then
      let e0 : Int := start + chunkSize
      let e1 : Int :=
        if e0 < (text.length : Int) then
          if pyRfind text '\n' start e0 > start + chunkSize - 100 then
            pyRfind text '\n' start e0
          else if pyRfind text ' ' start e0 > start + chunkSize - 50 then
            pyRfind text ' ' start e0
          else e0
        else e0
      chunk_text_loop text chunkSize overlap fuel (e1 - overlap)
        (chunks ++ [pySlice text start e1])
    else some chunks

/-- `chunk_text(text, chunk_size, overlap)` from `app/utils/helpers.py`,
lines 179-218.  `fuel` bounds the number of loop iterations observed;
a result of `none` means the source loop has not terminated within `fuel`
iterations (so `∀ fuel, ... = none` is non-termination). -/
def chunk_text (text : List Char) (chunkSize overlap : Int) (fuel : Nat) :
    Option (List (List Char)) :=
  if (text.length : Int) ≤ chunkSize then some [text]
  else chunk_text_loop text chunkSize overlap fuel 0 []

/-!
## Task-id generation (`app/utils/helpers.py`, lines 15-30)

`generate_task_id` hashes `f"{repo_url}#{pr_number}"` (or
`f"{repo_url}#repo_scan"` when no PR number is given) with SHA-256 and keeps
the first 16 hex characters.  SHA-256 is implemented below over `Nat` with
explicit reduction mod `2^32`; `str.encode()` is the standard UTF-8 encoding.
-/

/-- Reduce to a 32-bit word. -/
def w32 (n : Nat) : Nat := n % 4294967296

/-- 32-bit right rotation. -/
def rotr32 (x n : Nat) : Nat := w32 ((x >>> n) ||| (x <<< (32 - n)))

/-- UTF-8 encoding of one character (as byte values). -/
def utf8Char (c : Char) : List Nat :=
  let n := c.toNat
  if n < 128 then [n]
  else if n < 2048 then [192 + n / 64, 128 + n % 64]
  else if n < 65536 then [224 + n / 4096, 128 + n / 64 % 64, 128 + n % 64]
  else [240 + n / 262144, 128 + n / 4096 % 64, 128 + n / 64 % 64, 128 + n % 64]

/-- Python `str.encode()`: UTF-8 bytes of a string. -/
def utf8Bytes (s : List Char) : List Nat :=
  (s.map utf8Char).join

/-- The SHA-256 round constants (fractional parts of the cube roots of the
first 64 primes), written in decimal. -/
def sha256K : List Nat :=
  [1116352408, 1899447441, 3049323471, 3921009573, 961987163,
   1508970993, 2453635748, 2870763221, 3624381080, 310598401,
   607225278, 1426881987, 1925078388, 2162078206, 2614888103,
   3248222580, 3835390401, 4022224774, 264347078, 604807628,
   770255983, 1249150122, 1555081692, 1996064986, 2554220882,
   2821834349, 2952996808, 3210313671, 3336571891, 3584528711,
   113926993, 338241895, 666307205, 773529912, 1294757372,
   1396182291, 1695183700, 1986661051, 2177026350, 2456956037,
   2730485921, 2820302411, 3259730800, 3345764771, 3516065817,
   3600352804, 4094571909, 275423344, 430227734, 506948616,
   659060556, 883997877, 958139571, 1322822218, 1537002063,
   1747873779, 1955562222, 2024104815, 2227730452, 2361852424,
   2428436474, 2756734187, 3204031479, 3329325298]

/-- SHA-256 initial hash value (decimal). -/
def sha256H0 : List Nat :=
  [1779033703, 3144134277, 1013904242, 2773480762, 1359893119,
   2600822924, 528734635, 1541459225]

/-- SHA-256 message padding: append `0x80`, zeros, and the 64-bit big-endian
bit length, reaching a multiple of 64 bytes. -/
def sha256Pad (msg : List Nat) : List Nat :=
  let len := msg.length
  let zeros := (119 - len % 64) % 64
  let bitLen := 8 * len
  msg ++ [128] ++ List.replicate zeros 0 ++
    [bitLen / 2 ^ 56 % 256, bitLen / 2 ^ 48 % 256, bitLen / 2 ^ 40 % 256,
     bitLen / 2 ^ 32 % 256, bitLen / 2 ^ 24 % 256, bitLen / 2 ^ 16 % 256,
     bitLen / 2 ^ 8 % 256, bitLen % 256]

/-- Split a byte list into 64-byte blocks (fuel-driven; callers pass enough). -/
def toBlocks : Nat → List Nat → List (List Nat)
  | 0, _ => []
  | _, [] => []
  | n + 1, bs => bs.take 64 :: toBlocks n (bs.drop 64)

/-- Pack 4 big-endian bytes into one 32-bit word. -/
def packWords : Nat → List Nat → List Nat
  | 0, _ => []
  | _, [] => []
  | n + 1, bs =>
    (bs.getD 0 0 * 2 ^ 24 + bs.getD 1 0 * 2 ^ 16 + bs.getD 2 0 * 2 ^ 8 +
      bs.getD 3 0) :: packWords n (bs.drop 4)

/-- Extend the 16 message words to the 64-word schedule. -/
def sha256Schedule (ws : List Nat) : List Nat :=
  (List.range 48).foldl
    (fun ws _ =>
      let n := ws.length
      let s0 :=
        let x := ws.getD (n - 15) 0
        (rotr32 x 7) ^^^ (rotr32 x 18) ^^^ (x >>> 3)
      let s1 :=
        let x := ws.getD (n - 2) 0
        (rotr32 x 17) ^^^ (rotr32 x 19) ^^^ (x >>> 10)
      ws ++ [w32 (ws.getD (n - 16) 0 + s0 + ws.getD (n - 7) 0 + s1)])
    ws

/-- One SHA-256 compression: fold the 64 rounds over the 8-word state. -/
def sha256Compress (h : List Nat) (block : List Nat) : List Nat :=
  let ws := sha256Schedule (packWords 16 block)
  let init := (h.getD 0 0, h.getD 1 0, h.getD 2 0, h.getD 3 0,
               h.getD 4 0, h.getD 5 0, h.getD 6 0, h.getD 7 0)
  let fin := (List.range 64).foldl
    (fun st i =>
      let (a, b, c, d, e, f, g, hh) := st
      let s1 := (rotr32 e 6) ^^^ (rotr32 e 11) ^^^ (rotr32 e 25)
      let ch := (e &&& f) ^^^ ((4294967295 - e) &&& g)
      let t1 := w32 (hh + s1 + ch + sha256K.getD i 0 + ws.getD i 0)
      let s0 := (rotr32 a 2) ^^^ (rotr32 a 13) ^^^ (rotr32 a 22)
      let mj := (a &&& b) ^^^ (a &&& c) ^^^ (b &&& c)
      let t2 := w32 (s0 + mj)
      (w32 (t1 + t2), a, b, c, w32 (d + t1), e, f, g))
    init
  let (a, b, c, d, e, f, g, hh) := fin
  [w32 (h.getD 0 0 + a), w32 (h.getD 1 0 + b), w32 (h.getD 2 0 + c),
   w32 (h.getD 3 0 + d), w32 (h.getD 4 0 + e), w32 (h.getD 5 0 + f),
   w32 (h.getD 6 0 + g), w32 (h.getD 7 0 + hh)]

/-- SHA-256 digest of a byte list, as eight 32-bit words. -/
def sha256Words (msg : List Nat) : List Nat :=
  let padded := sha256Pad msg
  (toBlocks (padded.length) padded).foldl sha256Compress sha256H0

/-- One lowercase hex digit. -/
def hexDigit (n : Nat) : Char :=
  "0123456789abcdef".data.getD n '0'

/-- Eight lowercase hex characters of one 32-bit word. -/
def hexWord (n : Nat) : List Char :=
  [hexDigit (n / 2 ^ 28 % 16), hexDigit (n / 2 ^ 24 % 16),
   hexDigit (n / 2 ^ 20 % 16), hexDigit (n / 2 ^ 16 % 16),
   hexDigit (n / 2 ^ 12 % 16), hexDigit (n / 2 ^ 8 % 16),
   hexDigit (n / 2 ^ 4 % 16), hexDigit (n % 16)]

/-- `hashlib.sha256(bytes).hexdigest()`: 64 lowercase hex characters. -/
def sha256Hex (msg : List Nat) : List Char :=
  ((sha256Words msg).map hexWord).join

/-- `generate_task_id(repo_url, pr_number)` from `app/utils/helpers.py`,
lines 15-30: SHA-256 of `repo_url + "#" + str(pr_number)` (or
`repo_url + "#repo_scan"` without a PR number), truncated to 16 hex chars. -/
def generate_task_id (repoUrl : List Char) (prNumber : Option Int) : List Char :=
  let content :=
    match prNumber with
    | some n => repoUrl ++ ('#' :: (toString n).data)
    | none => repoUrl ++ "#repo_scan".data
  (sha256Hex (utf8Bytes content)).take 16

/-!
## File classification (`app/tasks/celery_tasks.py`, lines 346-435)
-/

/-- Python `str.lower()` (ASCII). -/
def lowerStr (s : List Char) : List Char := s.map Char.toLower

/-- Python `pat in s` substring test. -/
def containsSubstr (s pat : List Char) : Bool :=
  (List.range (s.length + 1)).any (fun i => pat.isPrefixOf (s.drop i))

/-- The `binary_extensions` deny-set of `_is_analyzable_file` (a Python set;
iteration order is irrelevant because only `any` membership is used). -/
def binary_extensions : List (List Char) :=
  [".png".data, ".jpg".data, ".jpeg".data, ".gif".data, ".bmp".data,
   ".ico".data, ".svg".data, ".pdf".data, ".doc".data, ".docx".data,
   ".xls".data, ".xlsx".data, ".ppt".data, ".pptx".data, ".zip".data,
   ".tar".data, ".gz".data, ".bz2".data, ".7z".data, ".rar".data,
   ".exe".data, ".dll".data, ".so".data, ".dylib".data, ".a".data,
   ".mp3".data, ".mp4".data, ".avi".data, ".mov".data, ".wav".data,
   ".ttf".data, ".otf".data, ".woff".data, ".woff2".data, ".db".data,
   ".sqlite".data, ".sqlite3".data]

/-- The `skip_patterns` directory deny-list (substring match anywhere). -/
def skip_patterns : List (List Char) :=
  ["node_modules/".data, "__pycache__/".data, ".git/".data, ".vscode/".data,
   ".idea/".data, "build/".data, "dist/".data, "target/".data, "bin/".data,
   "obj/".data, "out/".data, "vendor/".data, "deps/".data, "coverage/".data,
   ".coverage/".data, ".pytest_cache/".data, "venv/".data, "env/".data,
   ".env/".data]

/-- The suffixes that rescue a dot-file from the hidden-file rejection
(matched against the original, not lowercased, name — as in the source). -/
def hidden_ok_suffixes : List (List Char) :=
  [".py".data, ".js".data, ".ts".data, ".json".data, ".yml".data, ".yaml".data]

/-- The `source_extensions` allow-list of `_is_analyzable_file`. -/
def source_extensions : List (List Char) :=
  [".py".data, ".js".data, ".ts".data, ".jsx".data, ".tsx".data,
   ".java".data, ".c".data, ".cpp".data, ".h".data, ".hpp".data, ".cs".data,
   ".php".data, ".rb".data, ".go".data, ".rs".data, ".swift".data,
   ".kt".data, ".scala".data, ".sql".data, ".sh".data, ".bash".data,
   ".zsh".data, ".yml".data, ".yaml".data, ".json".data, ".xml".data,
   ".html".data, ".css".data, ".scss".data, ".less".data, ".md".data,
   ".txt".data, ".config".data, ".ini".data]

/-- `_is_analyzable_file(filename)` from `app/tasks/celery_tasks.py`,
lines 386-435: deny binary extensions, deny hidden files unless one of six
suffixes, deny build/dependency directory substrings, then accept exactly
the allow-listed source extensions.  There is no rule for extensionless
documentation names such as `README`. -/
def is_analyzable_file (filename : List Char) : Bool :=
  if filename.isEmpty then false
  else if binary_extensions.any (fun e => e.isSuffixOf (lowerStr filename)) then
    false
  else if filename.head? = some '.' &&
      !(hidden_ok_suffixes.any (fun e => e.isSuffixOf filename)) then
    false
  else if skip_patterns.any (fun p => containsSubstr filename p) then
    false
  else
    source_extensions.any (fun e => e.isSuffixOf (lowerStr filename))

/-- The `extension_map` of `_detect_language`, in the source's (ordered
Python dict) insertion order; the first suffix match wins. -/
def language_extension_map : List (List Char × List Char) :=
  [(".py".data, "python".data), (".js".data, "javascript".data),
   (".ts".data, "typescript".data), (".jsx".data, "react".data),
   (".tsx".data, "react".data), (".java".data, "java".data),
   (".c".data, "c".data), (".cpp".data, "cpp".data), (".h".data, "c".data),
   (".hpp".data, "cpp".data), (".cs".data, "csharp".data),
   (".php".data, "php".data), (".rb".data, "ruby".data),
   (".go".data, "go".data), (".rs".data, "rust".data),
   (".swift".data, "swift".data), (".kt".data, "kotlin".data),
   (".scala".data, "scala".data), (".sql".data, "sql".data),
   (".sh".data, "bash".data), (".yml".data, "yaml".data),
   (".yaml".data, "yaml".data), (".json".data, "json".data),
   (".xml".data, "xml".data), (".html".data, "html".data),
   (".css".data, "css".data), (".scss".data, "scss".data),
   (".md".data, "markdown".data)]

/-- `_detect_language(filename)` from `app/tasks/celery_tasks.py`,
lines 346-383: first suffix match on the lowercased name, default `text`. -/
def detect_language (filename : List Char) : List Char :=
  match language_extension_map.find?
      (fun p => p.1.isSuffixOf (lowerStr filename)) with
  | some p => p.2
  | none => "text".data

/-!
## Findings, per-file analysis results and the aggregate report
(`app/tasks/celery_tasks.py`, lines 204-317)
-/

/-- Python whitespace for `str.strip()` (ASCII range). -/
def isPySpace (c : Char) : Bool :=
  c == ' ' || c == '\t' || c == '\n' || c == '\r' || c == '\x0b' || c == '\x0c'

/-- Python `str.strip()`. -/
def pyStrip (s : List Char) : List Char :=
  ((s.dropWhile isPySpace).reverse.dropWhile isPySpace).reverse

/-- One issue dict as consumed by the orchestrator loop; absent dict keys are
`none` (`issue.get(...)` then yields Python `None`). -/
structure Issue where
  type : Option (List Char)
  line : Option Int
  description : Option (List Char)
  suggestion : Option (List Char)
  severity : Option (List Char)
deriving DecidableEq, Repr

/-- One finding dict as produced by `analyze_file_content`
(`findings` key); absent keys are `none`. -/
structure Finding where
  type : Option (List Char)
  line_number : Option Int
  description : Option (List Char)
  suggestion : Option (List Char)
deriving DecidableEq, Repr

/-- The slice of an LLM analysis-result dict the orchestrator reads:
its `issues` and `findings` keys (`none` = key absent or value `None`). -/
structure AnalysisResult where
  issues : Option (List Issue)
  findings : Option (List Finding)
deriving DecidableEq, Repr

/-- One unit of the orchestrator's file loop: the filename, the PR patch
(diff mode), the fetched file content (repo-scan mode), and the analysis
result the LLM service returned for it (an external input to the loop). -/
structure FileEntry where
  filename : List Char
  patch : Option (List Char)
  content : Option (List Char)
  analysis : Option AnalysisResult
deriving DecidableEq, Repr

/-- A `{"name": ..., "issues": [...]}` record of the final report. -/
structure FileReport where
  name : List Char
  issues : List Issue
deriving DecidableEq, Repr

/-- The report's summary counters. -/
structure Summary where
  total_files : Nat
  total_issues : Nat
  critical_issues : Nat
deriving DecidableEq, Repr

/-- The final `results` payload (lines 310-317).  In PR mode the code also
attaches a `pr_info` metadata block copied verbatim from the GitHub
provider; it plays no role in any claim and is not modelled. -/
structure Report where
  files : List FileReport
  summary : Summary
deriving DecidableEq, Repr

/-- `issue.get('severity') in ['critical', 'high'] or
issue.get('type') in ['security', 'bug']` (lines 300-302). -/
def is_critical (i : Issue) : Bool :=
  (i.severity == some "critical".data || i.severity == some "high".data) ||
  (i.type == some "security".data || i.type == some "bug".data)

/-- The findings-to-issues conversion of lines 283-292: each finding becomes
an issue dict with keys `type` (default `code_quality`), `line`,
`description` and `suggestion` — and, notably, no `severity` key. -/
def convert_findings (fs : List Finding) : List Issue :=
  fs.map fun f =>
    { type := some (f.type.getD "code_quality".data),
      line := f.line_number,
      description := some (f.description.getD []),
      suggestion := some (f.suggestion.getD []),
      severity := none }

/-- `issues = analysis_result.get('issues') or []`, then
`if 'findings' in analysis_result and not issues:` convert (lines 281-292). -/
def effective_issues (r : AnalysisResult) : List Issue :=
  let issues := r.issues.getD []
  if r.findings.isSome && issues.isEmpty then convert_findings (r.findings.getD [])
  else issues

/-- `analysis_result and (analysis_result.get('issues') or
analysis_result.get('findings'))` (line 279): truthy exactly when the result
is not `None` and carries a non-empty `issues` or `findings` list. -/
def analysis_truthy (a : Option AnalysisResult) : Bool :=
  match a with
  | none => false
  | some r => !(r.issues.getD []).isEmpty || !(r.findings.getD []).isEmpty

/-- Accumulator of the orchestrator's file loop:
`analyzed_files`, `total_issues`, `critical_issues` (lines 209-211). -/
structure ReportAcc where
  files : List FileReport
  totalIssues : Nat
  criticalIssues : Nat
deriving DecidableEq, Repr

/-- One iteration of the file loop (lines 214-302), minus the progress
update (modelled separately in `per_file_updates`): skip non-analyzable
files, skip PR files without a patch, skip repo-scan files whose fetched
content is missing or blank, then append a `{name, issues}` record and
accumulate the counters when the analysis result is truthy. -/
def process_file (prMode : Bool) (acc : ReportAcc) (f : FileEntry) : ReportAcc :=
  if !is_analyzable_file f.filename then acc
  else if prMode && (f.patch.getD []).isEmpty then acc
  else if !prMode &&
      ((f.content.getD []).isEmpty || (pyStrip (f.content.getD [])).isEmpty) then acc
  else if analysis_truthy f.analysis then
    let issues := effective_issues (f.analysis.getD ⟨none, none⟩)
    ⟨acc.files ++ [⟨f.filename, issues⟩],
     acc.totalIssues + issues.length,
     acc.criticalIssues + (issues.filter is_critical).length⟩
  else acc

/-- The final report of one run (lines 309-317): fold the file loop and wrap
the accumulator with `total_files = len(analyzed_files)`. -/
def build_report (prMode : Bool) (files : List FileEntry) : Report :=
  let acc := files.foldl (process_file prMode) ⟨[], 0, 0⟩
  ⟨acc.files, ⟨acc.files.length, acc.totalIssues, acc.criticalIssues⟩⟩

/-!
## The task store (`app/services/task_manager.py`)

The SQLAlchemy session is modelled as explicit state: the store is the
ordered list of task rows, keyed by `Task.id`.  `available` stands for the
`SQLALCHEMY_AVAILABLE and self.SessionLocal` guard.  Timestamps are
server-maintained and play no role in any claim; they are omitted.
-/

/-- One row of the `tasks` table (`app/models/database.py`). -/
structure TaskRec where
  id : List Char
  status : List Char
  progress : Int
  message : Option (List Char)
  result : Option Report
  error : Option (List Char)
  repo_url : List Char
  pr_number : Option Int
  github_token : Option (List Char)
deriving DecidableEq, Repr

/-- The row inserted by `TaskManager.create_task` (lines 78-86):
status `"pending"`, progress 0, empty result. -/
def new_task_rec (taskId repoUrl : List Char) (prNumber : Option Int)
    (githubToken : Option (List Char)) : TaskRec :=
  ⟨taskId, "pending".data, 0, none, none, none, repoUrl, prNumber, githubToken⟩

/-- `TaskManager.create_task` (lines 47-95): no-op returning `True` when the
id already exists, otherwise insert the fresh `"pending"` row; `False` only
when the database is unavailable (the broad exception path is subsumed by
`available = false`). -/
def create_task (available : Bool) (store : List TaskRec) (taskId repoUrl : List Char)
    (prNumber : Option Int) (githubToken : Option (List Char)) :
    Bool × List TaskRec :=
  if !available then (false, store)
  else
    match store.find? (fun t => t.id == taskId) with
    | some _ => (true, store)
    | none => (true, store ++ [new_task_rec taskId repoUrl prNumber githubToken])

/-- The argument bundle of one `update_task_status` call: the mandatory new
status plus the optional keyword arguments (`None` = not provided). -/
structure UpdateCall where
  status : List Char
  progress : Option Int
  message : Option (List Char)
  result : Option Report
  error : Option (List Char)
deriving DecidableEq, Repr

/-- The field mutation of `TaskManager.update_task_status` (lines 168-177):
the status is always overwritten, every other field only when provided. -/
def apply_update (t : TaskRec) (u : UpdateCall) : TaskRec :=
  { t with
    status := u.status,
    progress := u.progress.getD t.progress,
    message := match u.message with | some m => some m | none => t.message,
    result := match u.result with | some r => some r | none => t.result,
    error := match u.error with | some e => some e | none => t.error }

/-- `TaskManager.update_task_status` (lines 134-185): `False` when the store
is unavailable or the task is missing, otherwise apply the partial update to
the matching row.  Note: no guard whatsoever on the row's current status. -/
def update_task_status (available : Bool) (store : List TaskRec)
    (taskId : List Char) (u : UpdateCall) : Bool × List TaskRec :=
  if !available then (false, store)
  else if (store.find? (fun t => t.id == taskId)).isSome then
    (true, store.map (fun t => if t.id == taskId then apply_update t u else t))
  else (false, store)

/-!
## The orchestrator's update sequence (`app/tasks/celery_tasks.py`,
lines 42-59 and 136-343)

`analyze_pr_async` is a straight-line coroutine whose externally visible
effect on the task record is the ordered list of `update_task_status` calls
it issues.  That list is a function of the analysis mode, the file list and
where (if anywhere) an exception interrupts the run, which is exactly the
data of a `RunScenario` below.
-/

/-- A plain `status="processing"` progress update. -/
def progress_update (p : Int) (msg : List Char) : UpdateCall :=
  ⟨"processing".data, some p, some msg, none, none⟩

/-- The per-file progress updates of the loop (lines 214-218): one for every
element of `files_to_analyze` (issued before any skip test), with
`progress = 50 + i * 30 // len(files_to_analyze)`. -/
def per_file_updates (files : List FileEntry) : List UpdateCall :=
  (List.range files.length).map fun i =>
    progress_update ((50 + i * 30 / files.length : Nat) : Int)
      ("Analyzing file: ".data ++ (files.getD i ⟨[], none, none, none⟩).filename)

/-- The three updates issued before the file loop (progress 10, 25, 50),
whose messages depend on the analysis mode (lines 146-207). -/
def pre_loop_updates (prMode : Bool) : List UpdateCall :=
  if prMode then
    [progress_update 10 "Fetching pull request data from GitHub...".data,
     progress_update 25 "Analyzing file changes and diffs...".data,
     progress_update 50 "Analyzing code with AI...".data]
  else
    [progress_update 10 "Scanning repository structure...".data,
     progress_update 25 "Fetching repository files for analysis...".data,
     progress_update 50 "Analyzing code with AI...".data]

/-- All updates a run issues before its terminal update: the three pre-loop
updates, the per-file updates, and the progress-85 report update
(line 305). -/
def prefix_updates (prMode : Bool) (files : List FileEntry) : List UpdateCall :=
  pre_loop_updates prMode ++ per_file_updates files ++
    [progress_update 85 "Generating comprehensive analysis report...".data]

/-- The terminal update of a successful run (lines 329-332): `completed`,
progress 100, with the built report as result. -/
def completed_update (prMode : Bool) (files : List FileEntry) : UpdateCall :=
  ⟨"completed".data, some 100,
   some (if prMode then "Pull Request analysis completed successfully".data
         else "Repository analysis completed successfully".data),
   some (build_report prMode files), none⟩

/-- The `failed` update issued by the exception handlers (lines 340-342 and
52-58): progress 0, message `"Analysis failed: " + str(e)`, error `str(e)`. -/
def failed_update (msg : List Char) : UpdateCall :=
  ⟨"failed".data, some 0, some ("Analysis failed: ".data ++ msg), none, some msg⟩

/-- How one run ends: `success` — no exception; `failAt k msg` — an
exception with text `msg` is raised after the k-th issued update, so the
inner handler of `analyze_pr_async` issues a `failed` update and re-raises,
and the outer handler of `analyze_pr_task` issues a second identical
`failed` update; `failEarly msg` — an exception before the `try` block
(service construction, lines 138-139), so only the outer handler fires. -/
inductive RunOutcome where
  | success : RunOutcome
  | failAt : Nat → List Char → RunOutcome
  | failEarly : List Char → RunOutcome
deriving DecidableEq, Repr

/-- One complete run of `analyze_pr_task` for one task: the mode (PR diff
vs. repository scan), the file units the content provider returned (with
their analysis results), and how the run ends. -/
structure RunScenario where
  prMode : Bool
  files : List FileEntry
  outcome : RunOutcome
deriving DecidableEq, Repr

/-- The ordered list of `update_task_status` calls one run issues. -/
def run_updates (sc : RunScenario) : List UpdateCall :=
  match sc.outcome with
  | .success => prefix_updates sc.prMode sc.files ++ [completed_update sc.prMode sc.files]
  | .failAt k msg =>
      (prefix_updates sc.prMode sc.files).take k ++
        [failed_update msg, failed_update msg]
  | .failEarly msg => [failed_update msg]

/-- The task record after each point of an update sequence, starting from
(and including) the given initial record. -/
def trace_from (r : TaskRec) : List UpdateCall → List TaskRec
  | [] => [r]
  | u :: us => r :: trace_from (apply_update r u) us

/-- The two nullability invariants of one record: result non-null iff
`completed`, error non-null iff `failed`. -/
def rec_ok (r : TaskRec) : Bool :=
  ((r.status == "completed".data) == r.result.isSome) &&
  ((r.status == "failed".data) == r.error.isSome)

/-- Progress monotonicity, restricted to `processing` states. -/
def mono_rel (a b : TaskRec) : Prop :=
  a.status = "processing".data → b.status = "processing".data →
    a.progress ≤ b.progress

/-- Once an update carries a terminal status, every later update carries the
same status. -/
def terminal_stable_rel (a b : UpdateCall) : Prop :=
  a.status = "completed".data ∨ a.status = "failed".data → b.status = a.status

/-- The spec's end-to-end PR scenario: one changed file `main.py` with a
patch, whose (stubbed) analysis returns exactly one security issue. -/
def sec_file_example : FileEntry :=
  ⟨"main.py".data, some "+ API_KEY = secret123".data, some "x = 1".data,
   some ⟨some [⟨some "security".data, some 3, some "hardcoded secret".data,
               some "use env var".data, none⟩], none⟩⟩

/-- A file whose analysis came back with empty `issues` and no `findings`. -/
def no_issue_file_example : FileEntry :=
  ⟨"util.py".data, some "+ x = 2".data, some "y = 2".data,
   some ⟨some [], none⟩⟩

/-- Consistency of the loop accumulator with its own file list. -/
def acc_consistent (acc : ReportAcc) : Prop :=
  acc.totalIssues = (acc.files.map (fun fr => fr.issues.length)).sum ∧
  acc.criticalIssues =
    (acc.files.map (fun fr => (fr.issues.filter is_critical).length)).sum

/-- The progress an update carries (updates of interest always carry one). -/
def pval (u : UpdateCall) : Int := u.progress.getD 0

/-- A plain in-flight update: `processing`, with a progress value, touching
neither result nor error. -/
def plain_upd (u : UpdateCall) : Prop :=
  u.status = "processing".data ∧ u.result = none ∧ u.error = none ∧
    u.progress.isSome = true

/-- An in-flight record: no result, no error, not terminal. -/
def plain_state (r : TaskRec) : Prop :=
  r.result = none ∧ r.error = none ∧ r.status ≠ "completed".data ∧
    r.status ≠ "failed".data

/-- The shapes a run's terminal update segment can take. -/
inductive TailShape : List UpdateCall → Prop where
  | nil : TailShape []
  | done (m : Bool) (files : List FileEntry) : TailShape [completed_update m files]
  | fail1 (msg : List Char) : TailShape [failed_update msg]
  | fail2 (msg : List Char) : TailShape [failed_update msg, failed_update msg]

/-!
## Tiered model-response parsing (`app/services/llm.py`, lines 851-903,
1009-1045 and 1047-1106)

JSON values are modelled by `PyVal`.  The calls into the Python `json` and
`re` standard libraries are external collaborators and appear as an oracle
record `JsonEnv`; everything else — the tier sequencing, the exception
routing, and the whole line-based heuristic extractor — is translated
directly from the source.
-/

/-- A Python/JSON value, as far as the parsers inspect one. -/
inductive PyVal where
  | str : List Char → PyVal
  | num : Int → PyVal
  | bool : Bool → PyVal
  | null : PyVal
  | arr : List PyVal → PyVal
  | obj : List (List Char × PyVal) → PyVal

/-- Dict lookup on a `PyVal`. -/
def PyVal.lookup : PyVal → List Char → Option PyVal
  | .obj kvs, k => (kvs.find? (fun kv => kv.1 == k)).map (fun kv => kv.2)
  | _, _ => none

/-- Python `k in parsed` as used on parsed JSON: key membership for dicts.
(On non-dict values `in` would mean element/substring membership or raise;
the parsers only reach it on `json.loads` output and the theorems below
never depend on that corner, so it is modelled as `false`.) -/
def PyVal.hasKey (v : PyVal) (k : List Char) : Bool := (v.lookup k).isSome

/-- Python `s.find(c)`. -/
def pyFindChar (s : List Char) (c : Char) : Int :=
  match s.findIdx? (· == c) with
  | some i => (i : Int)
  | none => -1

/-- Python `s.rfind(c)` (full range). -/
def pyRfindChar (s : List Char) (c : Char) : Int :=
  pyRfindNat s c 0 s.length

/-- The stdlib calls of the two parsers, as oracles:
`loads s` is `json.loads(s)` (`none` = `JSONDecodeError` raised) and
`loadsErr s` the `str(e)` of that error; `searchJsonBlock` is
`re.search(r'```json\s*(\{.*\})\s*```', ..., DOTALL)` group 1;
`fixJson` is the quote-repair `re.sub`; `searchIssuesArr` is
`re.search(r'"issues"\s*:\s*\[(.*?)\]', ..., DOTALL)` group 1;
`searchIssuesObj` is the flat-object `re.search` of
`_parse_code_review_response`; `findallJsonBlocks` is its fenced-block
`re.findall`. -/
structure JsonEnv where
  loads : List Char → Option PyVal
  loadsErr : List Char → List Char
  searchJsonBlock : List Char → Option (List Char)
  fixJson : List Char → List Char
  searchIssuesArr : List Char → Option (List Char)
  searchIssuesObj : List Char → Option (List Char)
  findallJsonBlocks : List Char → List (List Char)

/-- The diagnostic dict returned when every tier of
`_parse_analysis_response` fails (lines 898-903): empty `findings` and
`issues` plus the raw response. -/
def analysis_fallback (response : List Char) : PyVal :=
  .obj [("summary".data,
          .str "Analysis completed but response format was invalid".data),
        ("findings".data, .arr []),
        ("issues".data, .arr []),
        ("raw_response".data, .str response)]

/-- `LLMService._parse_analysis_response` (lines 851-903): direct parse,
then fenced `json` block, then first-`\x7b`-to-last-`\x7d` extraction (with
one quote-repair retry), then the bare `issues` array wrapped in a minimal
envelope, then the diagnostic fallback.  Every `json.loads` failure is
caught locally, so the function is total. -/
def parse_analysis_response (env : JsonEnv) (response : List Char) : PyVal :=
  match env.loads response with
  | some v => v
  | none =>
    match (match env.searchJsonBlock response with
           | some content => env.loads content
           | none => none) with
    | some v => v
    | none =>
      let firstB := pyFindChar response '\x7b'
      let lastB := pyRfindChar response '\x7d'
      match (if firstB ≠ -1 ∧ lastB ≠ -1 ∧ lastB > firstB then
               let jsonContent := pySlice response firstB (lastB + 1)
               match env.loads jsonContent with
               | some v => some v
               | none => env.loads (env.fixJson jsonContent)
             else none) with
      | some v => v
      | none =>
        match (match env.searchIssuesArr response with
               | some grp =>
                 env.loads ("\x7b\"issues\": [".data ++ grp ++ "]\x7d".data)
               | none => none) with
        | some v => v
        | none => analysis_fallback response

/-- Python `text.split('\n')`. -/
def pySplitNl : List Char → List (List Char)
  | [] => [[]]
  | c :: rest =>
    match pySplitNl rest with
    | [] => [[c]]
    | h :: t => if c = '\n' then [] :: h :: t else (c :: h) :: t

/-- The issue-indicator keywords of `_extract_issues_from_text`
(line 1059). -/
def issue_keywords : List (List Char) :=
  ["security".data, "bug".data, "error".data, "issue".data, "problem".data,
   "vulnerability".data]

/-- `LLMService._detect_issue_type` (lines 1080-1092). -/
def detect_issue_type (text : List Char) : List Char :=
  let tl := lowerStr text
  if ["security".data, "vulnerability".data, "injection".data,
      "auth".data].any (containsSubstr tl) then "security".data
  else if ["bug".data, "error".data, "exception".data,
      "null".data].any (containsSubstr tl) then "bug".data
  else if ["performance".data, "slow".data, "memory".data,
      "optimization".data].any (containsSubstr tl) then "performance".data
  else if ["style".data, "format".data, "naming".data,
      "convention".data].any (containsSubstr tl) then "style".data
  else "quality".data

/-- Numeric value of a digit run. -/
def digitsVal (ds : List Char) : Nat :=
  ds.foldl (fun acc c => acc * 10 + (c.toNat - 48)) 0

/-- Leftmost match of `line\s*(\d+)` (the needle is lowercase, so searching
the lowercased text implements `re.IGNORECASE`). -/
def searchLineNum : List Char → Option Nat
  | [] => none
  | c :: rest =>
    if "line".data.isPrefixOf (c :: rest) then
      let after := ((c :: rest).drop 4).dropWhile isPySpace
      let digits := after.takeWhile Char.isDigit
      if !digits.isEmpty then some (digitsVal digits) else searchLineNum rest
    else searchLineNum rest

/-- Leftmost match of `[:@](\d+)[:@]?` (group 1). -/
def searchColonNum : List Char → Option Nat
  | [] => none
  | c :: rest =>
    if c == ':' || c == '@' then
      let digits := rest.takeWhile Char.isDigit
      if !digits.isEmpty then some (digitsVal digits) else searchColonNum rest
    else searchColonNum rest

/-- `LLMService._extract_line_number` (lines 1094-1106): `line 42` pattern
first, then `:42:`/`@42`, else 1. -/
def extract_line_number (text : List Char) : Int :=
  match searchLineNum (lowerStr text) with
  | some n => (n : Int)
  | none =>
    match searchColonNum text with
    | some n => (n : Int)
    | none => 1

/-- The accumulation loop of `_extract_issues_from_text` (lines 1055-1076):
a keyword line flushes the current pseudo-issue (when its description is
non-empty) and starts a new one; other non-empty, non-`#` lines extend the
current description. -/
def extract_issues_loop :
    List (List Char) → Option Issue → List Issue → List Issue
  | [], cur, acc =>
    match cur with
    | some i => if (i.description.getD []).isEmpty then acc else acc ++ [i]
    | none => acc
  | line :: rest, cur, acc =>
    let l := pyStrip line
    if issue_keywords.any (fun kw => containsSubstr (lowerStr l) kw) then
      let acc' :=
        match cur with
        | some i => if (i.description.getD []).isEmpty then acc else acc ++ [i]
        | none => acc
      extract_issues_loop rest
        (some ⟨some (detect_issue_type l), some (extract_line_number l),
               some l, some "Review and address this issue".data, none⟩) acc'
    else if cur.isSome && !l.isEmpty && !(l.head? == some '#') then
      match cur with
      | some i =>
        extract_issues_loop rest
          (some { i with description := some ((i.description.getD []) ++ ' ' :: l) })
          acc
      | none => extract_issues_loop rest cur acc
    else extract_issues_loop rest cur acc

/-- `LLMService._extract_issues_from_text` (lines 1047-1078), capped at 10
issues. -/
def extract_issues_from_text (text : List Char) : List Issue :=
  (extract_issues_loop (pySplitNl text) none []).take 10

/-- The pseudo-issue dicts the heuristic extractor builds (keys `type`,
`line`, `description`, `suggestion`; no `severity`). -/
def issueToPy (i : Issue) : PyVal :=
  .obj [("type".data, match i.type with | some s => .str s | none => .null),
        ("line".data, match i.line with | some n => .num n | none => .null),
        ("description".data,
          match i.description with | some s => .str s | none => .null),
        ("suggestion".data,
          match i.suggestion with | some s => .str s | none => .null)]

/-- The dict returned by the outer `except Exception` handler of
`_parse_code_review_response` (line 1045). -/
def code_review_error_result (e : List Char) : PyVal :=
  .obj [("issues".data, .arr []),
        ("error".data, .str ("Failed to parse LLM response: ".data ++ e))]

/-- The `try` body of `_parse_code_review_response` (lines 1011-1041):
`.error e` models an exception escaping the body (only the unguarded
`json.loads(response)` of tier 1 can raise one). -/
def code_review_body (env : JsonEnv) (response : List Char) :
    Except (List Char) PyVal :=
  let step1 : Except (List Char) (Option PyVal) :=
    if (pyStrip response).head? == some '\x7b' then
      match env.loads response with
      | none => .error (env.loadsErr response)
      | some parsed =>
        .ok (if parsed.hasKey "issues".data then some parsed else none)
    else .ok none
  match step1 with
  | .error e => .error e
  | .ok (some v) => .ok v
  | .ok none =>
    let t2 : Option PyVal :=
      match env.searchIssuesObj response with
      | some m =>
        match env.loads m with
        | some parsed => if parsed.hasKey "issues".data then some parsed else none
        | none => none
      | none => none
    match t2 with
    | some v => .ok v
    | none =>
      let t3 : Option PyVal :=
        (env.findallJsonBlocks response).findSome? (fun b =>
          match env.loads b with
          | some parsed =>
            if parsed.hasKey "issues".data then some parsed else none
          | none => none)
      match t3 with
      | some v => .ok v
      | none =>
        .ok (.obj [("issues".data,
          .arr ((extract_issues_from_text response).map issueToPy))])

/-- `LLMService._parse_code_review_response` (lines 1009-1045): the tier
body wrapped in the catch-all handler.  The `filename` parameter is unused
in the source too. -/
def parse_code_review_response (env : JsonEnv) (response _filename : List Char) :
    PyVal :=
  match code_review_body env response with
  | .ok v => v
  | .error e => code_review_error_result e

/-- The oracle behavior of `json`/`re` on inputs containing no JSON:
every `loads` raises (`str(e) = "Expecting value"`), no regex matches. -/
def all_fail_env : JsonEnv :=
  ⟨fun _ => none, fun _ => "Expecting value".data, fun _ => none, id,
   fun _ => none, fun _ => none, fun _ => []⟩

set_option maxRecDepth 100000

theorem pyRfindNat_of_not_mem {s : List Char} {c : Char} (h : c ∉ s)
    (a b : Nat) : pyRfindNat s c a b = -1 := by
  induction b with
  | zero => rfl
  | succ b ih =>
    simp only [pyRfindNat]
    split
    · rfl
    · split
      · rename_i hb
        exact absurd (List.get?_mem hb) h
      · exact ih

theorem newline_not_mem_replicate_a (n : Nat) : '\n' ∉ List.replicate n 'a' := by
  intro h
  have := List.eq_of_mem_replicate h
  simp at this

theorem space_not_mem_replicate_a (n : Nat) : ' ' ∉ List.replicate n 'a' := by
  intro h
  have := List.eq_of_mem_replicate h
  simp at this

theorem chunk_text_loop_c2 (fuel : Nat) :
    ∀ chunks, chunk_text_loop (List.replicate 101 'a') 100 100 fuel 0 chunks = none := by
  induction fuel with
  | zero => intro chunks; rfl
  | succ fuel ih =>
    intro chunks
    have hnl : pyRfind (List.replicate 101 'a') '\n' 0 100 = -1 := by
      unfold pyRfind
      exact pyRfindNat_of_not_mem (newline_not_mem_replicate_a 101) _ _
    have hsp : pyRfind (List.replicate 101 'a') ' ' 0 100 = -1 := by
      unfold pyRfind
      exact pyRfindNat_of_not_mem (space_not_mem_replicate_a 101) _ _
    simp only [chunk_text_loop, List.length_replicate, hnl, hsp]
    norm_num
    exact ih _

/-- C2.  `chunk_text` does not guard `overlap >= chunk_size`: on the
101-character text `'a' * 101` with `chunk_size = 100` and `overlap = 100`
every iteration recomputes `start = 0` (the cut point is `end = 100`, and
`start = end - overlap = 0`), so the loop never terminates, for any amount
of fuel. -/
theorem chunk_text_overlap_ge_chunk_size_diverges (fuel : Nat) :
    chunk_text (List.replicate 101 'a') 100 100 fuel = none := by
  unfold chunk_text
  norm_num
  exact chunk_text_loop_c2 fuel []

theorem chunk_text_loop_c3 (fuel : Nat) :
    ∀ start chunks, start = 0 ∨ start = -1 →
      chunk_text_loop (List.replicate 20 'a') 10 0 fuel start chunks = none := by
  induction fuel with
  | zero => intro start chunks _; rfl
  | succ fuel ih =>
    intro start chunks hstart
    rcases hstart with h | h <;> subst h
    · have hnl : pyRfind (List.replicate 20 'a') '\n' 0 10 = -1 := by
        unfold pyRfind
        exact pyRfindNat_of_not_mem (newline_not_mem_replicate_a 20) _ _
      simp only [chunk_text_loop, List.length_replicate, hnl]
      norm_num
      exact ih (-1) _ (Or.inr rfl)
    · have hnl : pyRfind (List.replicate 20 'a') '\n' (-1) 9 = -1 := by
        unfold pyRfind
        exact pyRfindNat_of_not_mem (newline_not_mem_replicate_a 20) _ _
      simp only [chunk_text_loop, List.length_replicate, hnl]
      norm_num
      exact ih (-1) _ (Or.inr rfl)

/-- C3.  The chunking round trip fails inside the claimed parameter range
`0 <= overlap < chunk_size`: on `'a' * 20` with `chunk_size = 10` and
`overlap = 0`, `rfind` returns `-1` (no newline anywhere), `-1` passes the
`newline_pos > start + chunk_size - 100` test, the cut point becomes `-1`,
`start` becomes `-1` and never advances again, so `chunk_text` never returns
a chunk list at all (for any amount of fuel) and a fortiori nothing
reassembles to the original text. -/
theorem chunk_text_roundtrip_input_diverges (fuel : Nat) :
    chunk_text (List.replicate 20 'a') 10 0 fuel = none := by
  unfold chunk_text
  norm_num
  exact chunk_text_loop_c3 fuel 0 [] (Or.inl rfl)

/-- C4.  `generate_task_id` is deterministic (it is a pure function of
`(repo_url, pr_number)`), and for a fixed repository URL distinct PR numbers
— including the no-PR repo-scan case — hash to distinct 16-character ids,
checked here by evaluating the SHA-256 model on the spec's example
repository URL. -/
theorem generate_task_id_deterministic_and_pr_sensitive :
    (∀ (repoUrl : List Char) (prNumber : Option Int),
      generate_task_id repoUrl prNumber = generate_task_id repoUrl prNumber) ∧
    generate_task_id "https://github.com/acme/demo".data (some 1) ≠
      generate_task_id "https://github.com/acme/demo".data (some 2) ∧
    generate_task_id "https://github.com/acme/demo".data (some 7) ≠
      generate_task_id "https://github.com/acme/demo".data none ∧
    generate_task_id "https://github.com/acme/demo".data (some 2) ≠
      generate_task_id "https://github.com/acme/demo".data none :=
  ⟨fun _ _ => rfl, by decide, by decide, by decide⟩

/-- C7 counterexample.  The claim says `README` (no extension) is accepted
because its base name is a known documentation filename; the code has no
such rule and rejects it (no allow-listed extension matches). -/
theorem is_analyzable_file_readme_rejected :
    is_analyzable_file "README".data = false := by decide

/-- C7 amended.  Classification decides the spec's examples as follows:
`binary.png` rejected, `src/app.py` accepted with language `python`,
`node_modules/x.js` rejected, and `README` rejected — acceptance requires
the lowercased filename to end in an allow-listed extension, and there is
no doc-filename (README/license/...) rule. -/
theorem classification_examples :
    is_analyzable_file "binary.png".data = false ∧
    is_analyzable_file "src/app.py".data = true ∧
    detect_language "src/app.py".data = "python".data ∧
    is_analyzable_file "node_modules/x.js".data = false ∧
    is_analyzable_file "README".data = false ∧
    ∀ f, is_analyzable_file f = true →
      source_extensions.any (fun e => e.isSuffixOf (lowerStr f)) = true := by
  refine ⟨by decide, by decide, by decide, by decide, by decide, ?_⟩
  intro f h
  unfold is_analyzable_file at h
  split at h
  · simp at h
  · split at h
    · simp at h
    · split at h
      · simp at h
      · split at h
        · simp at h
        · exact h

/-- C6 counterexample.  The record actually inserted by `create_task` has
status `"pending"`, not the claimed `"queued"` (the literal `"queued"` only
appears in the HTTP response, never in the stored record). -/
theorem create_task_inserts_pending :
    ((create_task true [] "t1".data "https://github.com/acme/demo".data
        (some 7) none).2.map (fun t => t.status)) = ["pending".data] ∧
    "pending".data ≠ "queued".data := by
  exact ⟨by decide, by decide⟩

/-- C6 amended.  `create_task` returns `true` and inserts a fresh record
with status `"pending"` (not `"queued"`), progress 0 and empty result
exactly when the id is absent, leaves the store untouched when the id is
already present, and is idempotent: a second create after any create is a
no-op that still returns `true`. -/
theorem create_task_idempotent (store : List TaskRec)
    (tid url : List Char) (pr : Option Int) (tok : Option (List Char)) :
    create_task true store tid url pr tok =
      (true, if (store.find? (fun t => t.id == tid)).isSome then store
             else store ++ [new_task_rec tid url pr tok]) ∧
    create_task true (create_task true store tid url pr tok).2 tid url pr tok =
      (true, (create_task true store tid url pr tok).2) ∧
    (new_task_rec tid url pr tok).status = "pending".data ∧
    (new_task_rec tid url pr tok).progress = 0 ∧
    (new_task_rec tid url pr tok).result = none := by
  have hfind : ∀ s : List TaskRec, s.find? (fun t => t.id == tid) = none →
      (s ++ [new_task_rec tid url pr tok]).find? (fun t => t.id == tid) =
        some (new_task_rec tid url pr tok) := by
    intro s hs
    rw [List.find?_append, hs]
    simp [List.find?, new_task_rec]
  refine ⟨?_, ?_, rfl, rfl, rfl⟩
  · unfold create_task
    cases h : store.find? (fun t => t.id == tid) with
    | none => simp [h]
    | some r => simp [h]
  · unfold create_task
    cases h : store.find? (fun t => t.id == tid) with
    | none => simp [h, hfind store h]
    | some r => simp [h]

/-- C5 counterexample.  `update_task_status` has no terminal-state guard:
applied to a store holding a `completed` task, the very first update a
re-run of the pipeline issues (the PR-mode progress-10 update, which is
indeed the head of `run_updates`) moves the record back to `processing`,
leaving the terminal state.  Re-runs do happen: re-submitting the same
`(repo_url, pr_number)` regenerates the same task id and unconditionally
re-enqueues `analyze_pr_task` (`app/api/routes/analysis.py`, lines 77-90). -/
theorem update_task_status_leaves_completed :
    (run_updates ⟨true, [], .success⟩).head? =
      some (progress_update 10 "Fetching pull request data from GitHub...".data) ∧
    ((update_task_status true
        [⟨"t1".data, "completed".data, 100, none, some ⟨[], ⟨0, 0, 0⟩⟩, none,
          "u".data, some 7, none⟩]
        "t1".data
        (progress_update 10 "Fetching pull request data from GitHub...".data)).2.map
      (fun t => t.status)) = ["processing".data] := by
  exact ⟨by decide, by decide⟩

theorem process_file_consistent (m : Bool) (acc : ReportAcc) (f : FileEntry)
    (h : acc_consistent acc) : acc_consistent (process_file m acc f) := by
  unfold process_file
  split
  · exact h
  · split
    · exact h
    · split
      · exact h
      · split
        · obtain ⟨h1, h2⟩ := h
          exact ⟨by simp [h1], by simp [h2]⟩
        · exact h

theorem foldl_consistent (m : Bool) :
    ∀ (files : List FileEntry) (acc : ReportAcc), acc_consistent acc →
      acc_consistent (files.foldl (process_file m) acc) := by
  intro files
  induction files with
  | nil => intro acc h; exact h
  | cons f fs ih => intro acc h; exact ih _ (process_file_consistent m acc f h)

/-- C9.  The report's summary counters are exactly the counts over its file
records — an issue counting as critical precisely when its severity is
`critical`/`high` or its type is `security`/`bug` — and the spec's
end-to-end scenario (one file, one security issue) yields
`total_files = total_issues = critical_issues = 1`. -/
theorem report_counting :
    (∀ (prMode : Bool) (files : List FileEntry),
      (build_report prMode files).summary.total_files =
        (build_report prMode files).files.length ∧
      (build_report prMode files).summary.total_issues =
        ((build_report prMode files).files.map (fun fr => fr.issues.length)).sum ∧
      (build_report prMode files).summary.critical_issues =
        ((build_report prMode files).files.map
          (fun fr => (fr.issues.filter is_critical).length)).sum) ∧
    build_report true [sec_file_example] =
      ⟨[⟨"main.py".data,
         [⟨some "security".data, some 3, some "hardcoded secret".data,
           some "use env var".data, none⟩]⟩], ⟨1, 1, 1⟩⟩ := by
  constructor
  · intro m files
    obtain ⟨h1, h2⟩ := foldl_consistent m files ⟨[], 0, 0⟩ ⟨rfl, rfl⟩
    exact ⟨rfl, h1, h2⟩
  · decide

theorem process_file_skip (m : Bool) (acc : ReportAcc) (f : FileEntry)
    (h : analysis_truthy f.analysis = false) : process_file m acc f = acc := by
  unfold process_file
  rw [h]
  split
  · rfl
  · split
    · rfl
    · split
      · rfl
      · simp

theorem effective_issues_nonempty (r : AnalysisResult)
    (h : analysis_truthy (some r) = true) :
    (effective_issues r).isEmpty = false := by
  unfold analysis_truthy at h
  unfold effective_issues
  by_cases hi : (r.issues.getD []).isEmpty
  · have hf : (r.findings.getD []).isEmpty = false := by
      simp [hi] at h
      simpa using h
    have hs : r.findings.isSome = true := by
      cases hf' : r.findings with
      | none => rw [hf'] at hf; simp at hf
      | some l => rfl
    simp only [hs, hi, Bool.and_self, if_true]
    cases hf' : r.findings with
    | none => rw [hf'] at hs; simp at hs
    | some l =>
      rw [hf'] at hf
      simp [convert_findings]
      simpa using hf
  · simp only [Bool.and_eq_true, Bool.not_eq_true]
    rw [if_neg]
    · simpa using hi
    · intro hc
      exact hi hc.2

theorem process_file_all_nonempty (m : Bool) (acc : ReportAcc) (f : FileEntry)
    (h : acc.files.all (fun fr => !fr.issues.isEmpty) = true) :
    (process_file m acc f).files.all (fun fr => !fr.issues.isEmpty) = true := by
  unfold process_file
  split
  · exact h
  · split
    · exact h
    · split
      · exact h
      · split
        · rename_i hc
          cases ha : f.analysis with
          | none => rw [ha] at hc; simp [analysis_truthy] at hc
          | some r =>
            rw [ha] at hc
            have := effective_issues_nonempty r hc
            simp [List.all_append, h, ha, this]
        · exact h

theorem foldl_all_nonempty (m : Bool) :
    ∀ (files : List FileEntry) (acc : ReportAcc),
      acc.files.all (fun fr => !fr.issues.isEmpty) = true →
      ((files.foldl (process_file m) acc).files.all
        (fun fr => !fr.issues.isEmpty)) = true := by
  intro files
  induction files with
  | nil => intro acc h; exact h
  | cons f fs ih => intro acc h; exact ih _ (process_file_all_nonempty m acc f h)

/-- C10.  A file whose analysis result carries neither issues nor findings
is dropped from the report entirely — removing it from the input list does
not change the report — and every file record the report does contain has a
non-empty issue list, so `total_files` counts exactly the files with at
least one reported issue. -/
theorem report_omits_issueless_files (m : Bool) (pre post : List FileEntry)
    (f : FileEntry) (h : analysis_truthy f.analysis = false) :
    build_report m (pre ++ f :: post) = build_report m (pre ++ post) ∧
    (build_report m (pre ++ f :: post)).files.all
      (fun fr => !fr.issues.isEmpty) = true := by
  constructor
  · unfold build_report
    rw [List.foldl_append, List.foldl_cons, process_file_skip m _ f h,
      ← List.foldl_append]
  · unfold build_report
    exact foldl_all_nonempty m (pre ++ f :: post) ⟨[], 0, 0⟩ rfl

theorem report_omits_issueless_files_witness :
    analysis_truthy no_issue_file_example.analysis = false ∧
    (build_report true ([sec_file_example] ++ no_issue_file_example :: []) =
        build_report true ([sec_file_example] ++ []) ∧
      (build_report true
          ([sec_file_example] ++ no_issue_file_example :: [])).files.all
        (fun fr => !fr.issues.isEmpty) = true) :=
  ⟨by decide,
   report_omits_issueless_files true [sec_file_example] [] no_issue_file_example
     (by decide)⟩

theorem prefix_all_plain (m : Bool) (files : List FileEntry) :
    ∀ u ∈ prefix_updates m files, plain_upd u := by
  intro u hu
  unfold prefix_updates pre_loop_updates per_file_updates at hu
  simp only [List.mem_append, List.mem_map, List.mem_range] at hu
  rcases hu with (hu | ⟨i, _, rfl⟩) | hu
  · cases m <;> simp at hu <;>
      rcases hu with rfl | rfl | rfl <;>
      exact ⟨rfl, rfl, rfl, rfl⟩
  · exact ⟨rfl, rfl, rfl, rfl⟩
  · simp at hu
    subst hu
    exact ⟨rfl, rfl, rfl, rfl⟩

theorem prefix_pvals (m : Bool) (files : List FileEntry) :
    (prefix_updates m files).map pval =
      [10, 25, 50] ++
        (List.range files.length).map
          (fun i => ((50 + i * 30 / files.length : Nat) : Int)) ++ [85] := by
  unfold prefix_updates pre_loop_updates per_file_updates
  cases m <;> simp [pval, progress_update]

theorem per_file_pval_le (n i : Nat) (h : i < n) : 50 + i * 30 / n ≤ 80 := by
  have h1 : i * 30 / n ≤ n * 30 / n :=
    Nat.div_le_div_right (Nat.mul_le_mul_right 30 h.le)
  have h2 : n * 30 / n ≤ 30 := by
    rcases Nat.eq_zero_or_pos n with h0 | h0
    · simp [h0]
    · rw [Nat.mul_comm, Nat.mul_div_cancel _ h0]
  omega

theorem zero_prefix_sorted (m : Bool) (files : List FileEntry) :
    ((0 : Int) :: (prefix_updates m files).map pval).Pairwise (· ≤ ·) := by
  rw [prefix_pvals]
  have hM : ∀ b ∈ (List.range files.length).map
      (fun i => ((50 + i * 30 / files.length : Nat) : Int)),
      50 ≤ b ∧ b ≤ 80 := by
    intro b hb
    simp only [List.mem_map, List.mem_range] at hb
    obtain ⟨i, hi, rfl⟩ := hb
    constructor
    · exact_mod_cast Nat.le_add_right 50 (i * 30 / files.length)
    · exact_mod_cast per_file_pval_le files.length i hi
  have hMsorted : ((List.range files.length).map
      (fun i => ((50 + i * 30 / files.length : Nat) : Int))).Pairwise (· ≤ ·) := by
    refine List.Pairwise.map _ ?_ (List.pairwise_lt_range files.length)
    intro a b hab
    have : a * 30 / files.length ≤ b * 30 / files.length :=
      Nat.div_le_div_right (Nat.mul_le_mul_right 30 hab.le)
    exact_mod_cast Nat.add_le_add_left this 50
  show ((([0, 10, 25, 50] : List Int) ++
    ((List.range files.length).map
      (fun i => ((50 + i * 30 / files.length : Nat) : Int)) ++ [85]))).Pairwise (· ≤ ·)
  rw [List.pairwise_append]
  refine ⟨by decide, ?_, ?_⟩
  · rw [List.pairwise_append]
    refine ⟨hMsorted, List.pairwise_singleton _ _, ?_⟩
    intro a ha b hb
    simp only [List.mem_singleton] at hb
    subst hb
    have := (hM a ha).2
    omega
  · intro a ha b hb
    have ha' : a ≤ 50 := by
      simp only [List.mem_cons, List.not_mem_nil, or_false] at ha
      rcases ha with rfl | rfl | rfl | rfl <;> norm_num
    rcases List.mem_append.mp hb with hb | hb
    · have := (hM b hb).1
      omega
    · simp only [List.mem_singleton] at hb
      subst hb
      omega

theorem plain_state_ok (r : TaskRec) (h : plain_state r) : rec_ok r = true := by
  obtain ⟨h1, h2, h3, h4⟩ := h
  simp [rec_ok, h1, h2, h3, h4]

theorem apply_plain (r : TaskRec) (u : UpdateCall) (hr : plain_state r)
    (hu : plain_upd u) : plain_state (apply_update r u) := by
  obtain ⟨u1, u2, u3, _⟩ := hu
  obtain ⟨r1, r2, _, _⟩ := hr
  refine ⟨?_, ?_, ?_, ?_⟩ <;>
    simp [apply_update, u1, u2, u3, r1, r2]

theorem trace_all_ok :
    ∀ (us : List UpdateCall) (r : TaskRec) (tail : List UpdateCall),
      plain_state r → (∀ u ∈ us, plain_upd u) → TailShape tail →
      (trace_from r (us ++ tail)).all rec_ok = true := by
  intro us
  induction us with
  | nil =>
    intro r tail hr hus htail
    obtain ⟨h1, h2, h3, h4⟩ := hr
    cases htail with
    | nil => simp [trace_from, plain_state_ok r ⟨h1, h2, h3, h4⟩]
    | done m files =>
      simp [trace_from, List.all_cons, plain_state_ok r ⟨h1, h2, h3, h4⟩,
        apply_update, completed_update, rec_ok, h1, h2]
      exact ⟨h3, h4⟩
    | fail1 msg =>
      simp [trace_from, List.all_cons, plain_state_ok r ⟨h1, h2, h3, h4⟩,
        apply_update, failed_update, rec_ok, h1, h2]
      exact ⟨h3, h4⟩
    | fail2 msg =>
      simp [trace_from, List.all_cons, plain_state_ok r ⟨h1, h2, h3, h4⟩,
        apply_update, failed_update, rec_ok, h1, h2]
      exact ⟨h3, h4⟩
  | cons u us ih =>
    intro r tail hr hus htail
    have hu := hus u (List.mem_cons_self u us)
    simp only [List.cons_append, trace_from, List.all_cons, Bool.and_eq_true]
    exact ⟨plain_state_ok r hr,
      ih (apply_update r u) tail (apply_plain r u hr hu)
        (fun v hv => hus v (List.mem_cons_of_mem u hv)) htail⟩

theorem trace_progress_lb :
    ∀ (us : List UpdateCall) (r : TaskRec) (tail : List UpdateCall),
      (∀ u ∈ us, plain_upd u) → TailShape tail →
      ((r.progress :: us.map pval).Pairwise (· ≤ ·)) →
      ∀ b ∈ trace_from r (us ++ tail), b.status = "processing".data →
        r.progress ≤ b.progress := by
  intro us
  induction us with
  | nil =>
    intro r tail _ htail _ b hb hbs
    cases htail with
    | nil =>
      simp only [List.nil_append, trace_from, List.mem_singleton] at hb
      subst hb; exact le_refl _
    | done m files =>
      simp only [List.nil_append, trace_from, List.mem_cons,
        List.mem_singleton, List.not_mem_nil, or_false] at hb
      rcases hb with rfl | rfl
      · exact le_refl _
      · rw [show (apply_update r (completed_update m files)).status =
            "completed".data from rfl] at hbs
        exact absurd hbs (by decide)
    | fail1 msg =>
      simp only [List.nil_append, trace_from, List.mem_cons,
        List.mem_singleton, List.not_mem_nil, or_false] at hb
      rcases hb with rfl | rfl
      · exact le_refl _
      · rw [show (apply_update r (failed_update msg)).status =
            "failed".data from rfl] at hbs
        exact absurd hbs (by decide)
    | fail2 msg =>
      simp only [List.nil_append, trace_from, List.mem_cons,
        List.mem_singleton, List.not_mem_nil, or_false] at hb
      rcases hb with rfl | rfl | rfl
      · exact le_refl _
      · rw [show (apply_update r (failed_update msg)).status =
            "failed".data from rfl] at hbs
        exact absurd hbs (by decide)
      · rw [show (apply_update (apply_update r (failed_update msg))
            (failed_update msg)).status = "failed".data from rfl] at hbs
        exact absurd hbs (by decide)
  | cons u us ih =>
    intro r tail hus htail hsorted b hb hbs
    have hu := hus u (List.mem_cons_self u us)
    simp only [List.cons_append, trace_from, List.mem_cons] at hb
    rcases hb with rfl | hb
    · exact le_refl _
    · have hstep : r.progress ≤ (apply_update r u).progress := by
        have hmem : pval u ∈ (u :: us).map pval := by simp
        have := (List.pairwise_cons.mp hsorted).1 _ hmem
        obtain ⟨_, _, _, hp⟩ := hu
        obtain ⟨p, hp'⟩ := Option.isSome_iff_exists.mp hp
        simp [apply_update, hp', pval] at this ⊢
        simpa [pval, hp'] using this
      have hsorted' : ((apply_update r u).progress :: us.map pval).Pairwise
          (· ≤ ·) := by
        obtain ⟨_, _, _, hp⟩ := hu
        obtain ⟨p, hp'⟩ := Option.isSome_iff_exists.mp hp
        have htl := (List.pairwise_cons.mp hsorted).2
        simp only [List.map_cons] at htl
        simpa [apply_update, hp', pval] using htl
      exact le_trans hstep
        (ih (apply_update r u) tail
          (fun v hv => hus v (List.mem_cons_of_mem u hv)) htail hsorted' b hb hbs)

theorem trace_pairwise_mono :
    ∀ (us : List UpdateCall) (r : TaskRec) (tail : List UpdateCall),
      (∀ u ∈ us, plain_upd u) → TailShape tail →
      ((r.progress :: us.map pval).Pairwise (· ≤ ·)) →
      (trace_from r (us ++ tail)).Pairwise mono_rel := by
  intro us
  induction us with
  | nil =>
    intro r tail _ htail _
    cases htail with
    | nil => simp [trace_from]
    | done m files =>
      simp only [List.nil_append, trace_from]
      refine List.pairwise_cons.mpr ⟨?_, by simp⟩
      intro b hb
      simp only [List.mem_singleton] at hb
      subst hb
      intro _ hbs
      rw [show (apply_update r (completed_update m files)).status =
          "completed".data from rfl] at hbs
      exact absurd hbs (by decide)
    | fail1 msg =>
      simp only [List.nil_append, trace_from]
      refine List.pairwise_cons.mpr ⟨?_, by simp⟩
      intro b hb
      simp only [List.mem_singleton] at hb
      subst hb
      intro _ hbs
      rw [show (apply_update r (failed_update msg)).status =
          "failed".data from rfl] at hbs
      exact absurd hbs (by decide)
    | fail2 msg =>
      simp only [List.nil_append, trace_from]
      refine List.pairwise_cons.mpr ⟨?_, List.pairwise_cons.mpr ⟨?_, by simp⟩⟩
      · intro b hb _ hbs
        simp only [List.mem_cons, List.mem_singleton, List.not_mem_nil,
          or_false] at hb
        rcases hb with rfl | rfl
        · rw [show (apply_update r (failed_update msg)).status =
              "failed".data from rfl] at hbs
          exact absurd hbs (by decide)
        · rw [show (apply_update (apply_update r (failed_update msg))
              (failed_update msg)).status = "failed".data from rfl] at hbs
          exact absurd hbs (by decide)
      · intro b hb _ hbs
        simp only [List.mem_singleton] at hb
        subst hb
        rw [show (apply_update (apply_update r (failed_update msg))
            (failed_update msg)).status = "failed".data from rfl] at hbs
        exact absurd hbs (by decide)
  | cons u us ih =>
    intro r tail hus htail hsorted
    have hu := hus u (List.mem_cons_self u us)
    obtain ⟨_, _, _, hp⟩ := hu
    obtain ⟨p, hp'⟩ := Option.isSome_iff_exists.mp hp
    have hsorted' : ((apply_update r u).progress :: us.map pval).Pairwise
        (· ≤ ·) := by
      have htl := (List.pairwise_cons.mp hsorted).2
      simp only [List.map_cons] at htl
      simpa [apply_update, hp', pval] using htl
    simp only [List.cons_append, trace_from]
    refine List.pairwise_cons.mpr ⟨?_, ?_⟩
    · intro b hb hrs hbs
      have hstep : r.progress ≤ (apply_update r u).progress := by
        have hmem : pval u ∈ (u :: us).map pval := by simp
        have := (List.pairwise_cons.mp hsorted).1 _ hmem
        simp [apply_update, hp', pval] at this ⊢
        simpa [pval, hp'] using this
      exact le_trans hstep
        (trace_progress_lb us (apply_update r u) tail
          (fun v hv => hus v (List.mem_cons_of_mem u hv)) htail hsorted' b hb hbs)
    · exact ih (apply_update r u) tail
        (fun v hv => hus v (List.mem_cons_of_mem u hv)) htail hsorted'

/-- C1.  Along the record trace of any single run — success, failure at any
point, or failure before the pipeline body — starting from the freshly
created record: the result field is non-null iff the status is `completed`,
the error field is non-null iff the status is `failed`, and among
`processing` states the progress values are monotonically non-decreasing. -/
theorem task_lifecycle_invariant (sc : RunScenario) (tid url : List Char)
    (pr : Option Int) (tok : Option (List Char)) :
    (trace_from (new_task_rec tid url pr tok) (run_updates sc)).all rec_ok =
      true ∧
    (trace_from (new_task_rec tid url pr tok) (run_updates sc)).Pairwise
      mono_rel := by
  obtain ⟨m, files, outcome⟩ := sc
  have hplain : plain_state (new_task_rec tid url pr tok) :=
    ⟨rfl, rfl, by show "pending".data ≠ "completed".data; decide,
      by show "pending".data ≠ "failed".data; decide⟩
  have hprog : (new_task_rec tid url pr tok).progress = 0 := rfl
  cases outcome with
  | success =>
    constructor
    · exact trace_all_ok (prefix_updates m files) _ _ hplain
        (prefix_all_plain m files) (TailShape.done m files)
    · refine trace_pairwise_mono (prefix_updates m files) _ _
        (prefix_all_plain m files) (TailShape.done m files) ?_
      rw [hprog]
      exact zero_prefix_sorted m files
  | failAt k msg =>
    have hsub : ∀ u ∈ (prefix_updates m files).take k, plain_upd u :=
      fun u hu => prefix_all_plain m files u (List.take_subset k _ hu)
    have hsorted : ((0 : Int) :: ((prefix_updates m files).take k).map pval).Pairwise
        (· ≤ ·) := by
      rw [List.map_take, ← List.take_succ_cons]
      exact (zero_prefix_sorted m files).sublist (List.take_sublist _ _)
    constructor
    · exact trace_all_ok ((prefix_updates m files).take k) _ _ hplain hsub
        (TailShape.fail2 msg)
    · refine trace_pairwise_mono ((prefix_updates m files).take k) _ _
        hsub (TailShape.fail2 msg) ?_
      rw [hprog]
      exact hsorted
  | failEarly msg =>
    constructor
    · exact trace_all_ok [] _ _ hplain (by simp) (TailShape.fail1 msg)
    · exact trace_pairwise_mono [] _ _ (by simp) (TailShape.fail1 msg)
        (by simp)

theorem pairwise_terminal_of_processing (l : List UpdateCall)
    (h : ∀ u ∈ l, u.status = "processing".data) :
    l.Pairwise terminal_stable_rel := by
  induction l with
  | nil => exact List.Pairwise.nil
  | cons u us ih =>
    refine List.pairwise_cons.mpr ⟨?_, ih fun v hv => h v (List.mem_cons_of_mem u hv)⟩
    intro v _ habs
    have hu := h u (List.mem_cons_self u us)
    rw [hu] at habs
    rcases habs with habs | habs <;> exact absurd habs (by decide)

/-- C5 amended.  Within a single run the orchestrator never leaves a
terminal status once it has issued one: any update following a `completed`
or `failed` update carries the same status (a failure issues two identical
`failed` updates).  The store-level guard the claim suggests does not exist:
see the counterexample, where a re-run moves a `completed` record back to
`processing`. -/
theorem run_updates_terminal_stable (sc : RunScenario) :
    (run_updates sc).Pairwise terminal_stable_rel := by
  obtain ⟨m, files, outcome⟩ := sc
  have hproc : ∀ u ∈ prefix_updates m files, u.status = "processing".data :=
    fun u hu => (prefix_all_plain m files u hu).1
  cases outcome with
  | success =>
    show (prefix_updates m files ++ [completed_update m files]).Pairwise _
    rw [List.pairwise_append]
    refine ⟨pairwise_terminal_of_processing _ hproc,
      List.pairwise_singleton _ _, ?_⟩
    intro a ha b _ habs
    rw [hproc a ha] at habs
    rcases habs with habs | habs <;> exact absurd habs (by decide)
  | failAt k msg =>
    show ((prefix_updates m files).take k ++
      [failed_update msg, failed_update msg]).Pairwise _
    rw [List.pairwise_append]
    refine ⟨pairwise_terminal_of_processing _
        (fun u hu => hproc u (List.take_subset k _ hu)), ?_, ?_⟩
    · refine List.pairwise_cons.mpr ⟨?_, List.pairwise_singleton _ _⟩
      intro v hv _
      simp only [List.mem_singleton] at hv
      subst hv
      rfl
    · intro a ha b _ habs
      rw [hproc a (List.take_subset k _ ha)] at habs
      rcases habs with habs | habs <;> exact absurd habs (by decide)
  | failEarly msg =>
    exact List.pairwise_singleton _ _

theorem mem_pyStrip {a : Char} {s : List Char} (h : a ∈ pyStrip s) : a ∈ s := by
  unfold pyStrip at h
  rw [List.mem_reverse] at h
  have h2 := List.dropWhile_sublist (l := (s.dropWhile isPySpace).reverse)
    (p := isPySpace)
  have h3 := h2.mem h
  rw [List.mem_reverse] at h3
  exact (List.dropWhile_sublist _).mem h3

theorem not_mem_of_pyFindChar_neg {s : List Char} {c : Char}
    (h : pyFindChar s c = -1) : c ∉ s := by
  intro hmem
  unfold pyFindChar at h
  cases hidx : s.findIdx? (· == c) with
  | some i => rw [hidx] at h; simp at h
  | none =>
    rw [List.findIdx?_eq_none_iff] at hidx
    have := hidx c hmem
    simp at this

/-- C8 amended.  Both parsers return a value for every input (they are total
functions of the response).  When no tier finds JSON — `json.loads` fails on
the raw response, there is no fenced block, no `\x7b` anywhere, and no
`issues` regex match — `_parse_analysis_response` returns its diagnostic
dict, whose `issues` list is empty and which carries the raw response, while
`_parse_code_review_response` instead returns just the heuristically
extracted issues, with no raw response attached. -/
theorem parse_fallback_shapes (env : JsonEnv) (response fname : List Char)
    (h1 : env.loads response = none)
    (h2 : env.searchJsonBlock response = none)
    (h3 : pyFindChar response '\x7b' = -1)
    (h4 : env.searchIssuesArr response = none)
    (h5 : env.searchIssuesObj response = none)
    (h6 : env.findallJsonBlocks response = []) :
    parse_analysis_response env response = analysis_fallback response ∧
    (analysis_fallback response).lookup "issues".data = some (.arr []) ∧
    (analysis_fallback response).lookup "raw_response".data =
      some (.str response) ∧
    (analysis_fallback response).lookup "findings".data = some (.arr []) ∧
    parse_code_review_response env response fname =
      .obj [("issues".data,
        .arr ((extract_issues_from_text response).map issueToPy))] ∧
    (parse_code_review_response env response fname).lookup
      "raw_response".data = none := by
  have hhead : ((pyStrip response).head? == some '\x7b') = false := by
    cases hh : (pyStrip response).head? with
    | none => rfl
    | some a =>
      have ha : a ∈ pyStrip response := by
        cases hps : pyStrip response with
        | nil => rw [hps] at hh; simp at hh
        | cons x xs =>
          rw [hps] at hh
          simp at hh
          subst hh
          exact List.mem_cons_self _ _
      have : a ≠ '\x7b' := by
        intro heq
        subst heq
        exact not_mem_of_pyFindChar_neg h3 (mem_pyStrip ha)
      simp [this]
  have hcr : parse_code_review_response env response fname =
      .obj [("issues".data,
        .arr ((extract_issues_from_text response).map issueToPy))] := by
    unfold parse_code_review_response code_review_body
    rw [hhead]
    simp only [Bool.false_eq_true, if_false, h5, h6]
    rfl
  refine ⟨?_, rfl, rfl, rfl, hcr, ?_⟩
  · unfold parse_analysis_response
    rw [h1, h2, h3, h4]
    simp
  · rw [hcr]
    rfl

theorem parse_fallback_shapes_witness :
    (all_fail_env.loads "hello world".data = none ∧
     all_fail_env.searchJsonBlock "hello world".data = none ∧
     pyFindChar "hello world".data '\x7b' = -1 ∧
     all_fail_env.searchIssuesArr "hello world".data = none ∧
     all_fail_env.searchIssuesObj "hello world".data = none ∧
     all_fail_env.findallJsonBlocks "hello world".data = []) ∧
    (parse_analysis_response all_fail_env "hello world".data =
        analysis_fallback "hello world".data ∧
      (analysis_fallback "hello world".data).lookup "issues".data =
        some (.arr []) ∧
      (analysis_fallback "hello world".data).lookup "raw_response".data =
        some (.str "hello world".data) ∧
      (analysis_fallback "hello world".data).lookup "findings".data =
        some (.arr []) ∧
      parse_code_review_response all_fail_env "hello world".data "f.py".data =
        .obj [("issues".data,
          .arr ((extract_issues_from_text "hello world".data).map issueToPy))] ∧
      (parse_code_review_response all_fail_env "hello world".data
        "f.py".data).lookup "raw_response".data = none) :=
  ⟨⟨rfl, rfl, by decide, rfl, rfl, rfl⟩,
   parse_fallback_shapes all_fail_env "hello world".data "f.py".data
     rfl rfl (by decide) rfl rfl rfl⟩

/-- C8 counterexample.  On a response with no JSON and no issue keywords,
`_parse_code_review_response` returns `\x7b"issues": []\x7d` — an empty
issue list but, contrary to the claim, no raw response for diagnostics
(only `_parse_analysis_response` attaches one). -/
theorem parse_code_review_fallback_lacks_raw_response :
    parse_code_review_response all_fail_env "no json here".data
        "main.py".data = PyVal.obj [("issues".data, PyVal.arr [])] ∧
    (parse_code_review_response all_fail_env "no json here".data
        "main.py".data).lookup "raw_response".data = none ∧
    (parse_analysis_response all_fail_env "no json here".data).lookup
        "raw_response".data = some (PyVal.str "no json here".data) := by
  refine ⟨?_, ?_, ?_⟩ <;> rfl
